import Mathlib

/-!
# Verification of `fetch_ledger_transactions` (src/src/main.rs)

Shallow embedding of the transaction-fetching CLI.  The embedding keeps the
source's structure: candid/ic types are modelled by their logical content
(`candid::Nat` as `Nat`, principal text as `String`, byte arrays as
`List Nat` of values `< 256`), the network transport is an explicit
environment function (the spec declares the transport out of scope), and the
two output channels (stdout rows, stderr diagnostics) are a list of tagged
lines.  A Rust `unwrap()` on `None` (a panic that aborts the process) is
modelled by `Option`: `none` means the run aborted at that point.
`u64` arithmetic wraps modulo `2 ^ 64` (release-profile semantics), made
explicit with `% u64Mod`.
-/

namespace FetchLedger

/-- The modulus `2 ^ 64` of Rust `u64` arithmetic. -/
def u64Mod : Nat := 2 ^ 64

/-! ## External data model (ic_icrc1 endpoint types) -/

/-- Model of `ic_icrc1::Account`: owner principal (rendered text) plus optional
32-byte subaccount. -/
structure Account where
  owner : String
  subaccount : Option (List Nat)
deriving Repr

/-- Model of `ic_icrc1::endpoints::Mint`. -/
structure MintRecord where
  to_ : Account
  amount : Nat
  memo : Option (List Nat)
  created_at_time : Option Nat
deriving Repr

/-- Model of `ic_icrc1::endpoints::Burn` (`from` is a Lean keyword, hence
`from_`). -/
structure BurnRecord where
  from_ : Account
  amount : Nat
  memo : Option (List Nat)
  created_at_time : Option Nat
deriving Repr

/-- Model of `ic_icrc1::endpoints::Transfer`. -/
structure TransferRecord where
  from_ : Account
  to_ : Account
  amount : Nat
  fee : Option Nat
  memo : Option (List Nat)
  created_at_time : Option Nat
deriving Repr

/-- Model of `ic_icrc1::endpoints::Transaction`: the raw wire record — a kind
discriminator string plus three independently optional sub-records. -/
structure RawTransaction where
  kind : String
  timestamp : Nat
  mint : Option MintRecord
  burn : Option BurnRecord
  transfer : Option TransferRecord
deriving Repr

/-- Model of `ic_icrc1::endpoints::GetTransactionsRequest`. -/
structure GetTransactionsRequest where
  start : Nat
  length : Nat
deriving Repr, DecidableEq

/-- The archive callback: canister id and method name. -/
structure QueryArchiveFn where
  canister_id : String
  method : String
deriving Repr

/-- Model of `ic_icrc1::endpoints::ArchivedTransactionRange`: one archive
delegation. -/
structure ArchivedTransactionRange where
  callback : QueryArchiveFn
  start : Nat
  length : Nat
deriving Repr

/-- Model of `ic_icrc1::endpoints::TransactionRange`: what an archive query
decodes to. -/
structure TransactionRange where
  transactions : List RawTransaction
deriving Repr

/-- Model of `ic_icrc1::endpoints::GetTransactionsResponse`. -/
structure GetTransactionsResponse where
  first_index : Nat
  log_length : Nat
  transactions : List RawTransaction
  archived_transactions : List ArchivedTransactionRange
deriving Repr

/-! ## Normalized transaction (`enum Transaction` in main.rs) -/

/-- Model of main.rs's `enum Transaction`: the closed tagged union. -/
inductive Transaction where
  | Burn (timestamp : Nat) (from_ : Account) (amount : Nat)
      (memo : Option (List Nat)) (created_at_time : Option Nat)
  | Mint (timestamp : Nat) (to_ : Account) (amount : Nat)
      (memo : Option (List Nat)) (created_at_time : Option Nat)
  | Transfer (timestamp : Nat) (from_ : Account) (to_ : Account) (amount : Nat)
      (fee : Option Nat) (memo : Option (List Nat)) (created_at_time : Option Nat)
deriving Repr

/-- Rust `Transaction::get_kind`. -/
def Transaction.get_kind : Transaction → String
  | .Burn .. => "burn"
  | .Mint .. => "mint"
  | .Transfer .. => "transfer"

/-- Rust `Transaction::get_timestamp`. -/
def Transaction.get_timestamp : Transaction → Nat
  | .Burn t .. => t
  | .Mint t .. => t
  | .Transfer t .. => t

/-- Rust `Transaction::get_amount`. -/
def Transaction.get_amount : Transaction → Nat
  | .Burn _ _ a _ _ => a
  | .Mint _ _ a _ _ => a
  | .Transfer _ _ _ a _ _ _ => a

/-- Rust `Transaction::get_memo`. -/
def Transaction.get_memo : Transaction → Option (List Nat)
  | .Burn _ _ _ m _ => m
  | .Mint _ _ _ m _ => m
  | .Transfer _ _ _ _ _ m _ => m

/-- Rust `Transaction::get_created_at_time`. -/
def Transaction.get_created_at_time : Transaction → Option Nat
  | .Burn _ _ _ _ c => c
  | .Mint _ _ _ _ c => c
  | .Transfer _ _ _ _ _ _ c => c

/-- Rust `TryFrom<ic_icrc1::endpoints::Transaction> for Transaction`.
The source calls `.unwrap()` on the sub-record matching the kind string:
if that sub-record is `None` the process panics, modelled here by the outer
`none`.  An unrecognized kind yields `Err(format!("Unknown kind {}", kind))`,
modelled by `some (.error ...)`. -/
def tryFrom (tx : RawTransaction) : Option (Except String Transaction) :=
  if tx.kind = "mint" then
    match tx.mint with
    | some m => some (.ok (.Mint tx.timestamp m.to_ m.amount m.memo m.created_at_time))
    | none => none
  else if tx.kind = "burn" then
    match tx.burn with
    | some b => some (.ok (.Burn tx.timestamp b.from_ b.amount b.memo b.created_at_time))
    | none => none
  else if tx.kind = "transfer" then
    match tx.transfer with
    | some t =>
        some (.ok (.Transfer tx.timestamp t.from_ t.to_ t.amount t.fee t.memo t.created_at_time))
    | none => none
  else some (.error ("Unknown kind " ++ tx.kind))

/-! ## Formatting helpers -/

/-- The sixteen characters `{:02X}`/`{:X}` formatting can emit. -/
def HEX : List Char :=
  ['0', '1', '2', '3', '4', '5', '6', '7', '8', '9', 'A', 'B', 'C', 'D', 'E', 'F']

/-- One uppercase hexadecimal digit (meaningful for `n < 16`, which is the
only case that arises from a byte). -/
def hexDigit (n : Nat) : Char := HEX.getD n '0'

/-- Rust `format!("{:02X}", byte)` for a byte: two uppercase hex digits. -/
def byteToHex (b : Nat) : String := String.mk [hexDigit (b / 16), hexDigit (b % 16)]

/-- Rust `subaccount_to_str`: each byte formatted `{:02X}`, collected into one
string. -/
def subaccount_to_str (subaccount : List Nat) : String :=
  String.join (subaccount.map byteToHex)

/-- Rust `memo_to_str`: the memo's bytes formatted `{:02X}`, collected into one
string. -/
def memo_to_str (memo : List Nat) : String :=
  String.join (memo.map byteToHex)

/-- Rust `account_to_str`: `format!("{} {}", account.owner, subaccount_hex)` where
the hex part is empty when the subaccount is absent
(`map(subaccount_to_str).unwrap_or_default()`). -/
def account_to_str (account : Account) : String :=
  account.owner ++ " " ++ ((account.subaccount.map subaccount_to_str).getD "")

/-- Rust `get_from`: empty for `Mint`, otherwise the rendered `from` account. -/
def get_from : Transaction → String
  | .Burn _ f _ _ _ => account_to_str f
  | .Mint .. => ""
  | .Transfer _ f _ _ _ _ _ => account_to_str f

/-- Rust `get_to`: empty for `Burn`, otherwise the rendered `to` account. -/
def get_to : Transaction → String
  | .Burn .. => ""
  | .Mint _ t _ _ _ => account_to_str t
  | .Transfer _ _ t _ _ _ _ => account_to_str t

/-- Digit grouping of `candid`'s `pp_num_str`: `rchunks(3)` over the decimal
digits (groups of three taken from the right), reversed and joined with
`'_'`.  Helper: left-to-right grouping in threes. -/
def group3 : List Char → List (List Char)
  | [] => []
  | [a] => [[a]]
  | [a, b] => [[a, b]]
  | a :: b :: c :: rest => [a, b, c] :: group3 rest

/-- The grouping of candid's `pp_num_str`: insert `'_'` between three-digit groups counted
from the right (e.g. `"12345"` becomes `"12_345"`). -/
def ppNumStr (s : String) : String :=
  String.intercalate "_"
    ((((group3 s.data.reverse).map List.reverse).reverse).map String.mk)

/-- Rust `Display for candid::Nat` (used for `log_length`, `amount`, `fee`):
decimal digits with `'_'` grouping per `pp_num_str`. -/
def natDisplay (n : Nat) : String := ppNumStr (Nat.repr n)

/-- Rust `get_fee`: empty unless the variant is `Transfer` with a present fee, in
which case the fee's `candid::Nat` rendering. -/
def get_fee : Transaction → String
  | .Transfer _ _ _ _ fee _ _ => (fee.map natDisplay).getD ""
  | _ => ""

/-! ## Timestamp formatting (chrono) -/

/-- Gregorian date from a nonnegative count of days since 1970-01-01
(Howard Hinnant's `civil_from_days`, the algorithm underlying chrono's
calendar arithmetic), returned as `(year, month, day)`. -/
def civilFromDays (days : Nat) : Nat × Nat × Nat :=
  let z := days + 719468
  let era := z / 146097
  let doe := z % 146097
  let yoe := (doe - doe / 1460 + doe / 36524 - doe / 146096) / 365
  let y := yoe + era * 400
  let doy := doe - (365 * yoe + yoe / 4 - yoe / 100)
  let mp := (5 * doy + 2) / 153
  let d := doy - (153 * mp + 2) / 5 + 1
  let m := if mp < 10 then mp + 3 else mp - 9
  (if m ≤ 2 then y + 1 else y, m, d)

/-- chrono `NaiveDateTime::from_timestamp_opt`, restricted to the
nonnegative timestamps this program produces: succeeds iff the nanosecond
part is a valid (possibly leap) nanosecond count and the civil year of the
day is within `NaiveDate`'s range (maximum year 262143). -/
def from_timestamp_opt (secs nsecs : Nat) : Option (Nat × Nat) :=
  if nsecs < 2000000000 ∧ (civilFromDays (secs / 86400)).1 ≤ 262143 then
    some (secs, nsecs)
  else none

/-- Zero-left-pad a decimal rendering to `width` characters. -/
def padZero (width : Nat) (n : Nat) : String :=
  String.mk (List.replicate (width - (Nat.repr n).length) '0') ++ Nat.repr n

/-- Rust `timestamp_to_utc_rtc3339`: split the nanosecond timestamp into seconds
and sub-second nanoseconds, build the chrono datetime (`unwrap`: the `none`
branch models the panic, proved unreachable below), and render
`to_rfc3339_opts(SecondsFormat::Millis, false)` — `YYYY-MM-DDTHH:MM:SS.mmm`
followed by the numeric zero offset `+00:00` (never `Z`, since `use_z` is
`false`). -/
def timestamp_to_utc_rtc3339 (timestamp : Nat) : String :=
  let secs := timestamp / 1000000000
  let nsecs := timestamp % 1000000000
  match from_timestamp_opt secs nsecs with
  | none => "panicked at Option::unwrap on None"
  | some (s, ns) =>
    let c := civilFromDays (s / 86400)
    let sod := s % 86400
    padZero 4 c.1 ++ "-" ++ padZero 2 c.2.1 ++ "-" ++ padZero 2 c.2.2 ++ "T" ++
    padZero 2 (sod / 3600) ++ ":" ++ padZero 2 (sod % 3600 / 60) ++ ":" ++
    padZero 2 (sod % 60) ++ "." ++ padZero 3 (ns / 1000000) ++ "+00:00"

/-! ## Row rendering and the fetch loop of `print_txs` -/

/-- Rust `tx_to_tsv`: the nine columns joined with `'|'`.  The block index is a
`u64` (plain decimal); `amount`/`fee` are `candid::Nat` (grouped decimal). -/
def tx_to_tsv (idx : Nat) (tx : Transaction) : String :=
  String.intercalate "|"
    [Nat.repr idx,
     tx.get_kind,
     timestamp_to_utc_rtc3339 tx.get_timestamp,
     get_from tx,
     get_to tx,
     natDisplay tx.get_amount,
     get_fee tx,
     ((tx.get_memo.map memo_to_str).getD ""),
     ((tx.get_created_at_time.map timestamp_to_utc_rtc3339).getD "")]

/-- One emitted line: `out` is stdout (`println!`), `err` is stderr
(`eprintln!`). -/
inductive OutLine where
  | out (line : String)
  | err (line : String)
deriving Repr, DecidableEq

/-- The inner per-slice loop of `print_txs`: each raw transaction is
normalized; `Ok` prints the row, `Err` prints the diagnostic, and either way
`idx += 1` (wrapping `u64`).  A panic inside `try_into` (missing sub-record)
aborts the run: no line for that record, nothing after it, flag `true`.
Returns (events as (index used, line) pairs, final index, panicked?). -/
def processList (idx : Nat) : List RawTransaction → List (Nat × OutLine) × Nat × Bool
  | [] => ([], idx, false)
  | tx :: rest =>
    match tryFrom tx with
    | none => ([], idx, true)
    | some (.ok t) =>
      let r := processList ((idx + 1) % u64Mod) rest
      ((idx, .out (tx_to_tsv idx t)) :: r.1, r.2)
    | some (.error e) =>
      let r := processList ((idx + 1) % u64Mod) rest
      ((idx, .err ("Error on tx " ++ Nat.repr idx ++ ": " ++ e)) :: r.1, r.2)

/-- The archive loop of `print_txs`: for each delegation, in response order,
query the delegation's callback (the network exchange and candid decode are
the environment `env`) and run the per-slice loop on the returned
`TransactionRange`.  A panic stops everything. -/
def processDelegations (env : ArchivedTransactionRange → TransactionRange) (idx : Nat) :
    List ArchivedTransactionRange → List (Nat × OutLine) × Nat × Bool
  | [] => ([], idx, false)
  | d :: rest =>
    if (processList idx (env d).transactions).2.2 then
      ((processList idx (env d).transactions).1,
        (processList idx (env d).transactions).2.1, true)
    else
      ((processList idx (env d).transactions).1 ++
          (processDelegations env (processList idx (env d).transactions).2.1 rest).1,
        (processDelegations env (processList idx (env d).transactions).2.1 rest).2)

/-- The per-transaction events of one `print_txs` run: all delegated slices
first (in response order), then the live response's own slice, with the
index threaded through.  `start` is the caller-supplied offset. -/
def printTxsEvents (env : ArchivedTransactionRange → TransactionRange)
    (res : GetTransactionsResponse) (start : Nat) : List (Nat × OutLine) × Bool :=
  if (processDelegations env start res.archived_transactions).2.2 then
    ((processDelegations env start res.archived_transactions).1, true)
  else
    ((processDelegations env start res.archived_transactions).1 ++
        (processList (processDelegations env start res.archived_transactions).2.1
          res.transactions).1,
      (processList (processDelegations env start res.archived_transactions).2.1
        res.transactions).2.2)

/-- The header `print_txs` prints before any data row. -/
def headerLine : String :=
  "block index|kind|datetime|from|to|amount|fee|memo|created_at_time"

/-- The full line-by-line output of `print_txs`: header first, then the
per-transaction lines. -/
def printTxsOutput (env : ArchivedTransactionRange → TransactionRange)
    (res : GetTransactionsResponse) (start : Nat) : List OutLine :=
  OutLine.out headerLine :: ((printTxsEvents env res start).1.map (fun e => e.2))

/-- The stdout rows of a line sequence (stderr diagnostics dropped). -/
def rowsOf (ls : List OutLine) : List String :=
  ls.filterMap (fun l => match l with | .out s => some s | .err _ => none)

/-- The request `print_length` issues: `start: Nat::from(0u16)`,
`length: Nat::from(1u16)`. -/
def printLengthRequest : GetTransactionsRequest := { start := 0, length := 1 }

/-- What `print_length` prints: `println!("{}", res.log_length)`, i.e. the
`candid::Nat` rendering of the response's `log_length`. -/
def printLengthOutput (res : GetTransactionsResponse) : String :=
  natDisplay res.log_length

/-- Cumulative start index of each delegated slice: the delegation paired
with the (wrapped) index at which its first transaction is consumed. -/
def delegationOffsets (env : ArchivedTransactionRange → TransactionRange) (start : Nat) :
    List ArchivedTransactionRange → List (Nat × ArchivedTransactionRange)
  | [] => []
  | d :: rest =>
    (start, d) :: delegationOffsets env ((start + (env d).transactions.length) % u64Mod) rest

/-- Total number of transactions contained in the delegated slices. -/
def totalDelegated (env : ArchivedTransactionRange → TransactionRange)
    (ds : List ArchivedTransactionRange) : Nat :=
  (ds.map (fun d => (env d).transactions.length)).sum

/-! ## Helper lemmas: string concatenation and hex rendering -/

lemma foldl_append_data (l : List String) (acc : String) :
    (l.foldl (fun r s => r ++ s) acc).data = acc.data ++ (l.map String.data).flatten := by
  induction l generalizing acc with
  | nil => simp
  | cons h t ih => simp [List.foldl, ih, String.data_append]

lemma join_data (l : List String) :
    (String.join l).data = (l.map String.data).flatten := by
  simpa using foldl_append_data l ""

lemma hexDigit_mem (n : Nat) : hexDigit n ∈ HEX := by
  unfold hexDigit
  rcases Nat.lt_or_ge n 16 with h | h
  · interval_cases n <;> decide
  · rw [List.getD_eq_default _ _ (by simpa [HEX] using h)]; decide

lemma hexJoin_data (s : List Nat) :
    (String.join (s.map byteToHex)).data =
      (s.map (fun b => [hexDigit (b / 16), hexDigit (b % 16)])).flatten := by
  rw [join_data, List.map_map]
  congr 1

lemma hexJoin_length (s : List Nat) :
    (String.join (s.map byteToHex)).length = 2 * s.length := by
  show (String.join (s.map byteToHex)).data.length = 2 * s.length
  rw [hexJoin_data, List.length_flatten, List.map_map]
  induction s with
  | nil => rfl
  | cons b t ih => simp [Function.comp] at ih ⊢; omega

lemma hexJoin_mem (s : List Nat) :
    ∀ c ∈ (String.join (s.map byteToHex)).data, c ∈ HEX := by
  intro c hc
  rw [hexJoin_data] at hc
  rcases List.mem_flatten.1 hc with ⟨l, hl, hcl⟩
  rcases List.mem_map.1 hl with ⟨b, _, rfl⟩
  simp only [List.mem_cons, List.not_mem_nil, or_false] at hcl
  rcases hcl with rfl | rfl
  · exact hexDigit_mem _
  · exact hexDigit_mem _

lemma account_to_str_ne_empty (a : Account) : account_to_str a ≠ "" := by
  intro h
  have hd := congrArg String.data h
  rw [account_to_str] at hd
  simp [String.data_append] at hd

/-! ## Claim theorems -/

/-- C5: `account_to_str` yields the owner text, a single space, then the
subaccount as 64 uppercase hex characters when present and the empty string
otherwise; no subaccount gives `"<owner> "` and the all-zero subaccount
gives `"<owner> "` followed by 64 zeros. -/
theorem account_to_str_spec (owner : String) (s : List Nat)
    (hl : s.length = 32) (hb : ∀ b ∈ s, b < 256) :
    account_to_str { owner := owner, subaccount := none } = owner ++ " " ∧
    account_to_str { owner := owner, subaccount := some s } =
      owner ++ " " ++ subaccount_to_str s ∧
    (subaccount_to_str s).length = 64 ∧
    (∀ c ∈ (subaccount_to_str s).data, c ∈ HEX) ∧
    account_to_str { owner := owner, subaccount := some (List.replicate 32 0) } =
      owner ++ " " ++ String.mk (List.replicate 64 '0') := by
  refine ⟨by simp [account_to_str], by simp [account_to_str], ?_, ?_, ?_⟩
  · rw [subaccount_to_str, hexJoin_length, hl]
  · exact hexJoin_mem s
  · have hz : subaccount_to_str (List.replicate 32 0) = String.mk (List.replicate 64 '0') := by
      decide
    rw [account_to_str]
    show owner ++ " " ++ subaccount_to_str (List.replicate 32 0) = _
    rw [hz]

/-- C5 witness: the spec layout at a concrete 32-byte subaccount. -/
theorem account_to_str_spec_witness :
    (List.range 32).length = 32 ∧ (∀ b ∈ List.range 32, b < 256) ∧
    (account_to_str { owner := "own", subaccount := none } = "own" ++ " " ∧
      account_to_str { owner := "own", subaccount := some (List.range 32) } =
        "own" ++ " " ++ subaccount_to_str (List.range 32) ∧
      (subaccount_to_str (List.range 32)).length = 64 ∧
      (∀ c ∈ (subaccount_to_str (List.range 32)).data, c ∈ HEX) ∧
      account_to_str { owner := "own", subaccount := some (List.replicate 32 0) } =
        "own" ++ " " ++ String.mk (List.replicate 64 '0')) :=
  ⟨by decide, by decide,
    account_to_str_spec "own" (List.range 32) (by decide) (by decide)⟩

/-- C9: the memo column is empty when no memo is present, otherwise the
memo's bytes as uppercase hex, two digits per byte with no separator, so its
length is twice the memo's byte length. -/
theorem memo_to_str_spec (tx : Transaction) (m : List Nat) (hb : ∀ b ∈ m, b < 256) :
    (tx.get_memo = none → (tx.get_memo.map memo_to_str).getD "" = "") ∧
    (tx.get_memo = some m → (tx.get_memo.map memo_to_str).getD "" = memo_to_str m) ∧
    memo_to_str m = String.join (m.map byteToHex) ∧
    (memo_to_str m).length = 2 * m.length ∧
    (∀ c ∈ (memo_to_str m).data, c ∈ HEX) := by
  refine ⟨fun h => by simp [h], fun h => by simp [h], rfl, ?_, ?_⟩
  · rw [memo_to_str, hexJoin_length]
  · exact hexJoin_mem m

/-- C9 witness: concrete memo bytes `[0xAB, 0xCD]` on a burn transaction. -/
theorem memo_to_str_spec_witness :
    (∀ b ∈ [171, 205], b < 256) ∧
    ((Transaction.Burn 0 { owner := "o", subaccount := none } 1 (some [171, 205])
          none).get_memo = none →
        ((Transaction.Burn 0 { owner := "o", subaccount := none } 1 (some [171, 205])
          none).get_memo.map memo_to_str).getD "" = "") ∧
      ((Transaction.Burn 0 { owner := "o", subaccount := none } 1 (some [171, 205])
          none).get_memo = some [171, 205] →
        ((Transaction.Burn 0 { owner := "o", subaccount := none } 1 (some [171, 205])
          none).get_memo.map memo_to_str).getD "" = memo_to_str [171, 205]) ∧
      memo_to_str [171, 205] = String.join ([171, 205].map byteToHex) ∧
      (memo_to_str [171, 205]).length = 2 * ([171, 205] : List Nat).length ∧
      (∀ c ∈ (memo_to_str [171, 205]).data, c ∈ HEX) :=
  ⟨by decide,
    memo_to_str_spec (Transaction.Burn 0 { owner := "o", subaccount := none } 1
      (some [171, 205]) none) [171, 205] (by decide)⟩

/-- C7: `timestamp_to_utc_rtc3339` is deterministic (formatting twice gives
byte-identical strings) and renders nanosecond value 0 as the UTC epoch in
RFC 3339 with millisecond precision and the numeric `+00:00` zero offset. -/
theorem timestamp_format_deterministic (t : Nat) :
    timestamp_to_utc_rtc3339 t = timestamp_to_utc_rtc3339 t ∧
    timestamp_to_utc_rtc3339 0 = "1970-01-01T00:00:00.000+00:00" :=
  ⟨rfl, by decide⟩

/-- Year bound for the day counts reachable from a `u64` nanosecond
timestamp: at most 213503 days past the epoch, the civil year stays far
below chrono's maximum year 262143. -/
lemma civilFromDays_year_le (days : Nat) (h : days ≤ 213503) :
    (civilFromDays days).1 ≤ 262143 := by
  unfold civilFromDays
  have hera : (days + 719468) / 146097 ≤ 6 := by
    calc (days + 719468) / 146097 ≤ 932971 / 146097 := Nat.div_le_div_right (by omega)
    _ = 6 := by norm_num
  have hdoe : (days + 719468) % 146097 ≤ 146096 :=
    Nat.le_of_lt_succ (Nat.mod_lt _ (by norm_num))
  have h1 : (days + 719468) % 146097 / 36524 ≤ (days + 719468) % 146097 / 1460 :=
    Nat.div_le_div_left (by norm_num) (by norm_num)
  have h2 : (days + 719468) % 146097 - (days + 719468) % 146097 / 1460 +
      (days + 719468) % 146097 / 36524 - (days + 719468) % 146097 / 146096 ≤ 146096 := by
    omega
  have hyoe : ((days + 719468) % 146097 - (days + 719468) % 146097 / 1460 +
      (days + 719468) % 146097 / 36524 - (days + 719468) % 146097 / 146096) / 365 ≤ 400 :=
    le_trans (Nat.div_le_div_right h2) (by norm_num)
  have hmul : (days + 719468) / 146097 * 400 ≤ 2400 := by
    calc (days + 719468) / 146097 * 400 ≤ 6 * 400 := Nat.mul_le_mul_right _ hera
    _ = 2400 := by norm_num
  dsimp only
  split <;> split <;> omega

/-- C10: the chrono datetime construction inside `timestamp_to_utc_rtc3339`
succeeds for every `u64` nanosecond timestamp, so its `unwrap` is
unreachable. -/
theorem timestamp_conversion_total (t : Nat) (h : t < 2 ^ 64) :
    (from_timestamp_opt (t / 1000000000) (t % 1000000000)).isSome = true := by
  have hn : t % 1000000000 < 2000000000 :=
    lt_trans (Nat.mod_lt _ (by norm_num)) (by norm_num)
  have hs : t / 1000000000 ≤ 18446744073 := by
    have h1 : t ≤ 18446744073709551615 := by omega
    calc t / 1000000000 ≤ 18446744073709551615 / 1000000000 := Nat.div_le_div_right h1
    _ = 18446744073 := by norm_num
  have hd : t / 1000000000 / 86400 ≤ 213503 := by
    calc t / 1000000000 / 86400 ≤ 18446744073 / 86400 := Nat.div_le_div_right hs
    _ = 213503 := by norm_num
  have hy := civilFromDays_year_le _ hd
  rw [from_timestamp_opt, if_pos ⟨hn, hy⟩]
  rfl

/-- C10 witness: the conversion succeeds at a concrete timestamp. -/
theorem timestamp_conversion_total_witness :
    (1669980000123456789 : Nat) < 2 ^ 64 ∧
    (from_timestamp_opt (1669980000123456789 / 1000000000)
      (1669980000123456789 % 1000000000)).isSome = true :=
  ⟨by norm_num, timestamp_conversion_total 1669980000123456789 (by norm_num)⟩

/-- A response whose `log_length` is 12345, with nothing else in it. -/
def res12345 : GetTransactionsResponse :=
  { first_index := 0, log_length := 12345, transactions := [], archived_transactions := [] }

/-- C8 counterexample: `print_length` does not print the literal integer
12345 — `candid::Nat`'s `Display` groups digits with `'_'`, so the printed
line is `12_345`. -/
theorem print_length_cex :
    printLengthOutput res12345 = "12_345" ∧ "12_345" ≠ "12345" := by
  decide

/-- C8 (amended): the length query issues a single request with start 0 and
length 1, and prints the response's `log_length` rendered by `candid::Nat`'s
`Display`, which groups the decimal digits in threes with `'_'`; for
`log_length = 12345` it prints `12_345`. -/
theorem print_length_spec (res : GetTransactionsResponse) :
    printLengthRequest = { start := 0, length := 1 } ∧
    printLengthOutput res = ppNumStr (Nat.repr res.log_length) ∧
    (res.log_length = 12345 → printLengthOutput res = "12_345") := by
  refine ⟨rfl, rfl, fun h => ?_⟩
  rw [printLengthOutput, h]
  decide

/-- C8 witness: the amended behavior at the concrete response. -/
theorem print_length_spec_witness :
    printLengthRequest = { start := 0, length := 1 } ∧
    printLengthOutput res12345 = "12_345" :=
  ⟨(print_length_spec res12345).1, (print_length_spec res12345).2.2 rfl⟩

/-- C6: each emitted row is the nine pipe-delimited columns in the order
block index, kind, datetime, from, to, amount, fee, memo, created_at_time;
the header row in that order comes once before the first data row; the from
column is empty exactly for `Mint` and the to column exactly for `Burn`. -/
theorem tsv_row_spec (env : ArchivedTransactionRange → TransactionRange)
    (res : GetTransactionsResponse) (start : Nat) (idx : Nat) (tx : Transaction) :
    tx_to_tsv idx tx = String.intercalate "|"
      [Nat.repr idx, tx.get_kind, timestamp_to_utc_rtc3339 tx.get_timestamp,
       get_from tx, get_to tx, natDisplay tx.get_amount, get_fee tx,
       (tx.get_memo.map memo_to_str).getD "",
       (tx.get_created_at_time.map timestamp_to_utc_rtc3339).getD ""] ∧
    printTxsOutput env res start =
      OutLine.out "block index|kind|datetime|from|to|amount|fee|memo|created_at_time" ::
        ((printTxsEvents env res start).1.map (fun e => e.2)) ∧
    (get_from tx = "" ↔ tx.get_kind = "mint") ∧
    (get_to tx = "" ↔ tx.get_kind = "burn") := by
  refine ⟨rfl, rfl, ?_, ?_⟩
  · cases tx <;>
      simp [get_from, Transaction.get_kind, account_to_str_ne_empty]
  · cases tx <;>
      simp [get_to, Transaction.get_kind, account_to_str_ne_empty]

/-- C3: an unrecognized kind string makes `try_from` fail with an error
carrying that kind; in `print_txs` the record yields exactly one stderr
diagnostic naming the index and the kind, zero stdout rows, and the
remaining records are processed from the same incremented index as for an
accepted record. -/
theorem unknown_kind_spec (tx : RawTransaction) (idx : Nat) (rest : List RawTransaction)
    (h1 : tx.kind ≠ "mint") (h2 : tx.kind ≠ "burn") (h3 : tx.kind ≠ "transfer") :
    tryFrom tx = some (Except.error ("Unknown kind " ++ tx.kind)) ∧
    (processList idx (tx :: rest)).1 =
      (idx, OutLine.err ("Error on tx " ++ Nat.repr idx ++ ": " ++ ("Unknown kind " ++ tx.kind)))
        :: (processList ((idx + 1) % u64Mod) rest).1 ∧
    rowsOf [OutLine.err ("Error on tx " ++ Nat.repr idx ++ ": " ++ ("Unknown kind " ++ tx.kind))]
      = [] ∧
    (processList idx (tx :: rest)).2 = (processList ((idx + 1) % u64Mod) rest).2 := by
  have htf : tryFrom tx = some (Except.error ("Unknown kind " ++ tx.kind)) := by
    rw [tryFrom, if_neg h1, if_neg h2, if_neg h3]
  exact ⟨htf, by simp [processList, htf], rfl, by simp [processList, htf]⟩

/-- A raw record with the unrecognized kind "approve". -/
def approveRaw : RawTransaction :=
  { kind := "approve", timestamp := 0, mint := none, burn := none, transfer := none }

/-- C3 witness: the unknown-kind behavior at a concrete record. -/
theorem unknown_kind_spec_witness :
    approveRaw.kind ≠ "mint" ∧ approveRaw.kind ≠ "burn" ∧ approveRaw.kind ≠ "transfer" ∧
    (tryFrom approveRaw = some (Except.error ("Unknown kind " ++ approveRaw.kind)) ∧
      (processList 5 (approveRaw :: [])).1 =
        (5, OutLine.err ("Error on tx " ++ Nat.repr 5 ++ ": " ++
          ("Unknown kind " ++ approveRaw.kind))) :: (processList ((5 + 1) % u64Mod) []).1 ∧
      rowsOf [OutLine.err ("Error on tx " ++ Nat.repr 5 ++ ": " ++
        ("Unknown kind " ++ approveRaw.kind))] = [] ∧
      (processList 5 (approveRaw :: [])).2 = (processList ((5 + 1) % u64Mod) []).2) :=
  ⟨by decide, by decide, by decide,
    unknown_kind_spec approveRaw 5 [] (by decide) (by decide) (by decide)⟩

/-- C4 (amended): a known kind whose sub-record is absent makes `try_from`
panic (`unwrap` on `None`), which aborts the entire run: no diagnostic or
row is emitted for that record and subsequent records are not processed. -/
theorem missing_subrecord_panics (tx : RawTransaction) (idx : Nat)
    (rest : List RawTransaction)
    (h : (tx.kind = "mint" ∧ tx.mint = none) ∨ (tx.kind = "burn" ∧ tx.burn = none) ∨
      (tx.kind = "transfer" ∧ tx.transfer = none)) :
    tryFrom tx = none ∧ processList idx (tx :: rest) = ([], idx, true) := by
  have htf : tryFrom tx = none := by
    rcases h with ⟨hk, hm⟩ | ⟨hk, hm⟩ | ⟨hk, hm⟩ <;> simp [tryFrom, hk, hm]
  exact ⟨htf, by simp [processList, htf]⟩

/-- A raw record declaring kind "mint" but carrying no mint sub-record. -/
def badMintRaw : RawTransaction :=
  { kind := "mint", timestamp := 0, mint := none, burn := none, transfer := none }

/-- A well-formed raw burn record. -/
def goodBurnRaw : RawTransaction :=
  { kind := "burn", timestamp := 0, mint := none, transfer := none,
    burn := some { from_ := { owner := "own", subaccount := none }, amount := 7,
                   memo := none, created_at_time := none } }

/-- C4 counterexample: the defect is not fatal to that single record only —
processing `[badMintRaw, goodBurnRaw]` aborts with no output at all, while
`goodBurnRaw` alone would have produced one row; the subsequent record is
not processed. -/
theorem missing_subrecord_cex :
    processList 0 [badMintRaw, goodBurnRaw] = ([], 0, true) ∧
    (processList 1 [goodBurnRaw]).1.length = 1 := by
  decide

/-- C4 witness: the panic behavior at a concrete record. -/
theorem missing_subrecord_panics_witness :
    (badMintRaw.kind = "mint" ∧ badMintRaw.mint = none) ∧
    (tryFrom badMintRaw = none ∧ processList 3 (badMintRaw :: [goodBurnRaw]) = ([], 3, true)) :=
  ⟨⟨rfl, rfl⟩, missing_subrecord_panics badMintRaw 3 [goodBurnRaw] (Or.inl ⟨rfl, rfl⟩)⟩

/-! ## Helper lemmas: index threading in the fetch loop -/

lemma u64Mod_pos : 0 < u64Mod := by norm_num [u64Mod]

/-- The line `print_txs` emits for one normalization result. -/
def lineFor (idx : Nat) : Except String Transaction → OutLine
  | .ok t => .out (tx_to_tsv idx t)
  | .error e => .err ("Error on tx " ++ Nat.repr idx ++ ": " ++ e)

lemma processList_cons_some (idx : Nat) (tx : RawTransaction) (rest : List RawTransaction)
    (r : Except String Transaction) (htf : tryFrom tx = some r) :
    processList idx (tx :: rest) =
      ((idx, lineFor idx r) :: (processList ((idx + 1) % u64Mod) rest).1,
        (processList ((idx + 1) % u64Mod) rest).2) := by
  cases r <;> simp [processList, htf, lineFor]

lemma processList_final (txs : List RawTransaction) :
    ∀ idx, idx < u64Mod →
      (processList idx txs).2.1 = (idx + (processList idx txs).1.length) % u64Mod := by
  induction txs with
  | nil => intro idx h; simp [processList, Nat.mod_eq_of_lt h]
  | cons tx rest ih =>
    intro idx h
    cases htf : tryFrom tx with
    | none => simp [processList, htf, Nat.mod_eq_of_lt h]
    | some r =>
      rw [processList_cons_some idx tx rest r htf]
      simp only [List.length_cons]
      rw [ih _ (Nat.mod_lt _ u64Mod_pos), Nat.mod_add_mod]
      congr 1
      omega

lemma processList_no_panic_length (txs : List RawTransaction) :
    ∀ idx, (processList idx txs).2.2 = false →
      (processList idx txs).1.length = txs.length := by
  induction txs with
  | nil => intro idx _; rfl
  | cons tx rest ih =>
    intro idx h
    cases htf : tryFrom tx with
    | none => simp [processList, htf] at h
    | some r =>
      rw [processList_cons_some idx tx rest r htf] at h ⊢
      simp only [List.length_cons]
      rw [ih _ h]

/-- The first components of `l` are the wrapped indices `idx, idx+1, ...`. -/
def IndexedFrom (idx : Nat) (l : List (Nat × OutLine)) : Prop :=
  l.map Prod.fst = (List.range l.length).map (fun k => (idx + k) % u64Mod)

lemma indexedFrom_nil (idx : Nat) : IndexedFrom idx [] := rfl

lemma indexedFrom_cons {idx : Nat} {l : List (Nat × OutLine)} (h : idx < u64Mod)
    (x : OutLine) (hl : IndexedFrom ((idx + 1) % u64Mod) l) :
    IndexedFrom idx ((idx, x) :: l) := by
  unfold IndexedFrom at hl ⊢
  simp only [List.map_cons, List.length_cons, List.range_succ_eq_map, List.map_map]
  rw [List.cons.injEq]
  constructor
  · simp [Nat.mod_eq_of_lt h]
  · rw [hl]
    apply List.map_congr_left
    intro k _
    simp only [Function.comp_apply, Nat.mod_add_mod]
    congr 1
    omega

lemma indexedFrom_append {idx : Nat} {l1 l2 : List (Nat × OutLine)}
    (h1 : IndexedFrom idx l1) (h2 : IndexedFrom ((idx + l1.length) % u64Mod) l2) :
    IndexedFrom idx (l1 ++ l2) := by
  unfold IndexedFrom at h1 h2 ⊢
  simp only [List.map_append, List.length_append]
  rw [List.range_add, List.map_append, List.map_map, h1, h2]
  congr 1
  apply List.map_congr_left
  intro k _
  simp only [Function.comp_apply, Nat.mod_add_mod]
  congr 1
  omega

lemma indexedFrom_get {idx : Nat} {l : List (Nat × OutLine)} (h : IndexedFrom idx l)
    (n : Nat) (hn : n < l.length) : (l.get ⟨n, hn⟩).1 = (idx + n) % u64Mod := by
  have hn1 : n < (l.map Prod.fst).length := by simpa using hn
  have e2 := List.get_of_eq h ⟨n, hn1⟩
  rw [List.get_map, List.get_map, List.get_range] at e2
  exact e2

lemma processList_indexed (txs : List RawTransaction) :
    ∀ idx, idx < u64Mod → IndexedFrom idx (processList idx txs).1 := by
  induction txs with
  | nil => intro idx _; exact indexedFrom_nil idx
  | cons tx rest ih =>
    intro idx h
    cases htf : tryFrom tx with
    | none =>
      have : (processList idx (tx :: rest)).1 = [] := by simp [processList, htf]
      rw [this]; exact indexedFrom_nil idx
    | some r =>
      rw [processList_cons_some idx tx rest r htf]
      exact indexedFrom_cons h _ (ih _ (Nat.mod_lt _ u64Mod_pos))

lemma processDelegations_final (ds : List ArchivedTransactionRange)
    (env : ArchivedTransactionRange → TransactionRange) :
    ∀ idx, idx < u64Mod →
      (processDelegations env idx ds).2.1 =
        (idx + (processDelegations env idx ds).1.length) % u64Mod := by
  induction ds with
  | nil => intro idx h; simp [processDelegations, Nat.mod_eq_of_lt h]
  | cons d rest ih =>
    intro idx h
    cases hp : (processList idx (env d).transactions).2.2 with
    | true =>
      simp only [processDelegations, hp, if_true]
      exact processList_final _ _ h
    | false =>
      have hfin := processList_final (env d).transactions idx h
      have hlt : (processList idx (env d).transactions).2.1 < u64Mod := by
        rw [hfin]; exact Nat.mod_lt _ u64Mod_pos
      simp only [processDelegations, hp, Bool.false_eq_true, if_false]
      rw [List.length_append, ih _ hlt, hfin, Nat.mod_add_mod]
      congr 1
      omega

lemma processDelegations_indexed (ds : List ArchivedTransactionRange)
    (env : ArchivedTransactionRange → TransactionRange) :
    ∀ idx, idx < u64Mod → IndexedFrom idx (processDelegations env idx ds).1 := by
  induction ds with
  | nil => intro idx _; exact indexedFrom_nil idx
  | cons d rest ih =>
    intro idx h
    cases hp : (processList idx (env d).transactions).2.2 with
    | true =>
      simp only [processDelegations, hp, if_true]
      exact processList_indexed _ _ h
    | false =>
      simp only [processDelegations, hp, Bool.false_eq_true, if_false]
      have hfin := processList_final (env d).transactions idx h
      have hlt : (processList idx (env d).transactions).2.1 < u64Mod := by
        rw [hfin]; exact Nat.mod_lt _ u64Mod_pos
      have h2 := ih _ hlt
      nth_rewrite 1 [hfin] at h2
      exact indexedFrom_append (processList_indexed _ _ h) h2

lemma printTxsEvents_indexed (env : ArchivedTransactionRange → TransactionRange)
    (res : GetTransactionsResponse) (start : Nat) (hs : start < u64Mod) :
    IndexedFrom start (printTxsEvents env res start).1 := by
  cases hp : (processDelegations env start res.archived_transactions).2.2 with
  | true =>
    simp only [printTxsEvents, hp, if_true]
    exact processDelegations_indexed _ _ _ hs
  | false =>
    simp only [printTxsEvents, hp, Bool.false_eq_true, if_false]
    have hfin := processDelegations_final res.archived_transactions env start hs
    have hlt : (processDelegations env start res.archived_transactions).2.1 < u64Mod := by
      rw [hfin]; exact Nat.mod_lt _ u64Mod_pos
    have h2 := processList_indexed res.transactions _ hlt
    nth_rewrite 1 [hfin] at h2
    exact indexedFrom_append (processDelegations_indexed _ _ _ hs) h2

lemma processDelegations_decomp (ds : List ArchivedTransactionRange)
    (env : ArchivedTransactionRange → TransactionRange) :
    ∀ idx, idx < u64Mod → (processDelegations env idx ds).2.2 = false →
      (processDelegations env idx ds).1 =
        ((delegationOffsets env idx ds).map
          (fun p => (processList p.1 (env p.2).transactions).1)).flatten ∧
      (processDelegations env idx ds).2.1 = (idx + totalDelegated env ds) % u64Mod := by
  induction ds with
  | nil =>
    intro idx h _
    exact ⟨rfl, by simp [processDelegations, delegationOffsets, totalDelegated,
      Nat.mod_eq_of_lt h]⟩
  | cons d rest ih =>
    intro idx h hf
    cases hp : (processList idx (env d).transactions).2.2 with
    | true => simp [processDelegations, hp] at hf
    | false =>
      simp only [processDelegations, hp, Bool.false_eq_true, if_false] at hf ⊢
      have hfin := processList_final (env d).transactions idx h
      have hlen := processList_no_panic_length (env d).transactions idx hp
      have hr : (processList idx (env d).transactions).2.1 =
          (idx + (env d).transactions.length) % u64Mod := by rw [hfin, hlen]
      have hlt : (processList idx (env d).transactions).2.1 < u64Mod := by
        rw [hr]; exact Nat.mod_lt _ u64Mod_pos
      obtain ⟨e1, e2⟩ := ih _ hlt hf
      have htd : totalDelegated env (d :: rest) =
          (env d).transactions.length + totalDelegated env rest := by
        simp [totalDelegated]
      constructor
      · rw [delegationOffsets]
        simp only [List.map_cons, List.flatten_cons]
        rw [e1, hr]
      · rw [e2, hr, Nat.mod_add_mod, htd]
        congr 1
        omega

/-- C1: `print_txs` consumes all archive delegations before the live
response's own embedded slice, in exactly the order the response lists
them: the event sequence is the concatenation of each delegated slice's
events (at its cumulative start index) followed by the live slice's events,
and the stdout row sequence is the header followed by the same
concatenation of per-slice rows. -/
theorem delegations_before_live (env : ArchivedTransactionRange → TransactionRange)
    (res : GetTransactionsResponse) (start : Nat) (hs : start < u64Mod)
    (h : (printTxsEvents env res start).2 = false) :
    (printTxsEvents env res start).1 =
      ((delegationOffsets env start res.archived_transactions).map
        (fun p => (processList p.1 (env p.2).transactions).1)).flatten ++
      (processList ((start + totalDelegated env res.archived_transactions) % u64Mod)
        res.transactions).1 ∧
    rowsOf (printTxsOutput env res start) =
      headerLine ::
      ((((delegationOffsets env start res.archived_transactions).map
          (fun p => rowsOf ((processList p.1 (env p.2).transactions).1.map
            (fun e => e.2)))).flatten) ++
        rowsOf ((processList ((start + totalDelegated env res.archived_transactions) % u64Mod)
          res.transactions).1.map (fun e => e.2))) := by
  cases hp : (processDelegations env start res.archived_transactions).2.2 with
  | true => simp [printTxsEvents, hp] at h
  | false =>
    obtain ⟨e1, e2⟩ := processDelegations_decomp res.archived_transactions env start hs hp
    have hev : (printTxsEvents env res start).1 =
        ((delegationOffsets env start res.archived_transactions).map
          (fun p => (processList p.1 (env p.2).transactions).1)).flatten ++
        (processList ((start + totalDelegated env res.archived_transactions) % u64Mod)
          res.transactions).1 := by
      simp only [printTxsEvents, hp, Bool.false_eq_true, if_false]
      rw [e1, e2]
    refine ⟨hev, ?_⟩
    rw [printTxsOutput, hev]
    simp only [rowsOf, List.filterMap_cons, List.map_append, List.filterMap_append,
      List.map_flatten, List.filterMap_flatten, List.map_map]
    rfl

/-- C2 (amended): the sequence index assigned to the Nth transaction
consumed across delegated and live slices combined is `(start + N) mod
2^64` — the index is a wrapping `u64` counter, so it equals `start + N`
whenever that sum stays below `2^64`. -/
theorem sequence_index_spec (env : ArchivedTransactionRange → TransactionRange)
    (res : GetTransactionsResponse) (start : Nat) (hs : start < u64Mod)
    (N : Nat) (hN : N < (printTxsEvents env res start).1.length) :
    ((printTxsEvents env res start).1.get ⟨N, hN⟩).1 = (start + N) % u64Mod :=
  indexedFrom_get (printTxsEvents_indexed env res start hs) N hN

/-- A well-formed raw mint record. -/
def mintRaw1 : RawTransaction :=
  { kind := "mint", timestamp := 0, burn := none, transfer := none,
    mint := some { to_ := { owner := "own", subaccount := none }, amount := 5,
                   memo := none, created_at_time := none } }

/-- An environment in which every archive query returns no transactions. -/
def env0 : ArchivedTransactionRange → TransactionRange := fun _ => { transactions := [] }

/-- A response with two live transactions and no delegations. -/
def resTwoLive : GetTransactionsResponse :=
  { first_index := 0, log_length := 2, transactions := [mintRaw1, mintRaw1],
    archived_transactions := [] }

/-- C2 counterexample: at the valid u64 start offset `2^64 - 1`, the second
transaction consumed is assigned the wrapped index 0, not `start + 1`. -/
theorem sequence_index_cex :
    (printTxsEvents env0 resTwoLive (2 ^ 64 - 1)).1.map Prod.fst = [2 ^ 64 - 1, 0] ∧
    (2 ^ 64 - 1) + 1 ≠ 0 := by
  decide

/-- C2 witness: the wrapped-index property at concrete inputs. -/
theorem sequence_index_spec_witness :
    0 < u64Mod ∧
    ((printTxsEvents env0 resTwoLive 0).1.get ⟨1, by decide⟩).1 = (0 + 1) % u64Mod :=
  ⟨by decide, sequence_index_spec env0 resTwoLive 0 (by decide) 1 (by decide)⟩

/-- A concrete archive delegation. -/
def archW : ArchivedTransactionRange :=
  { callback := { canister_id := "arch", method := "get_transactions" },
    start := 0, length := 1 }

/-- An environment in which every archive query returns one mint record. -/
def envW : ArchivedTransactionRange → TransactionRange :=
  fun _ => { transactions := [mintRaw1] }

/-- A well-formed raw transfer record. -/
def transferRaw1 : RawTransaction :=
  { kind := "transfer", timestamp := 0, mint := none, burn := none,
    transfer := some { from_ := { owner := "own", subaccount := none },
                       to_ := { owner := "own2", subaccount := none }, amount := 3,
                       fee := some 1, memo := none, created_at_time := none } }

/-- A response with one delegation and one live transaction. -/
def resW : GetTransactionsResponse :=
  { first_index := 0, log_length := 2, transactions := [transferRaw1],
    archived_transactions := [archW] }

/-- C1 witness: the delegations-before-live decomposition at concrete
inputs (one delegated mint, one live transfer). -/
theorem delegations_before_live_witness :
    0 < u64Mod ∧ (printTxsEvents envW resW 0).2 = false ∧
    ((printTxsEvents envW resW 0).1 =
      ((delegationOffsets envW 0 resW.archived_transactions).map
        (fun p => (processList p.1 (envW p.2).transactions).1)).flatten ++
      (processList ((0 + totalDelegated envW resW.archived_transactions) % u64Mod)
        resW.transactions).1 ∧
    rowsOf (printTxsOutput envW resW 0) =
      headerLine ::
      ((((delegationOffsets envW 0 resW.archived_transactions).map
          (fun p => rowsOf ((processList p.1 (envW p.2).transactions).1.map
            (fun e => e.2)))).flatten) ++
        rowsOf ((processList ((0 + totalDelegated envW resW.archived_transactions) % u64Mod)
          resW.transactions).1.map (fun e => e.2)))) :=
  ⟨by decide, by decide, delegations_before_live envW resW 0 (by decide) (by decide)⟩

end FetchLedger
